import Mathlib

/-!
Shallow embedding of the Inflation-vs-Market-Returns analysis pipeline
(`src/calculations.py` and `src/data_loader.py`).

Tabular data is modelled columnwise over `ℚ` (exact arithmetic in place of
floats); missing values (pandas `NaN`) are modelled by `Option`.  Quantities
whose numeric value involves a square root (standard deviations, Pearson
correlations, annualized volatility) are irrational in general, so they are
represented by the rational data that determines them (variances,
covariances), and theorems quantify over the nonnegative square roots.
-/

namespace InflationAnalysis

/-! ## Calculator: returns (`FinancialCalculator.calculate_returns`) -/

/-- Model of `Series.pct_change`: the first entry is `NaN` (`none`), entry
`i ≥ 1` is `p[i]/p[i-1] - 1`. -/
def pct_change (ps : List ℚ) : List (Option ℚ) :=
  none :: List.zipWith (fun prev cur => some (cur / prev - 1)) ps ps.tail

/-- Model of `Series.dropna`: keep the non-missing entries. -/
def dropna (l : List (Option ℚ)) : List ℚ :=
  l.filterMap id

/-- Embeds `FinancialCalculator.calculate_returns`:
`prices_df[price_col].pct_change()` followed by `.dropna()`. -/
def calculate_returns (ps : List ℚ) : List ℚ :=
  dropna (pct_change ps)

/-! ## Calculator: alignment (`FinancialCalculator.align_data`) -/

/-- A raw date, as a (month, day-of-month) pair; months are numbered
globally (year and month folded into one counter), so month-end
normalization `idx.to_period('M').to_timestamp('M')` keys a date by its
`month` component. -/
structure MDate where
  month : Nat
  day : Nat
deriving DecidableEq, Repr

/-- Month-end normalization of an indexed series: each date is replaced by
its enclosing month (the model of snapping to the month-end timestamp). -/
def normalizeIndex (l : List (MDate × Option ℚ)) : List (Nat × Option ℚ) :=
  l.map (fun p => (p.1.month, p.2))

/-- Value a normalized series holds at month `m`: the value of the first
entry for that month, `none` when the month is absent or the stored value
is missing. -/
def lookupMonth (l : List (Nat × Option ℚ)) (m : Nat) : Option ℚ :=
  match l.find? (fun p => p.1 == m) with
  | some p => p.2
  | none => none

/-- Inserts a month into a sorted duplicate-free list of months, keeping it
sorted and duplicate-free. -/
def sortedInsert (m : Nat) : List Nat → List Nat
  | [] => [m]
  | h :: t =>
    if m < h then m :: h :: t
    else if m = h then h :: t
    else h :: sortedInsert m t

/-- Sorted duplicate-free list of the months occurring in `l` (the model of
the sorted union index pandas builds when combining two series into a
`DataFrame`). -/
def sortedMonths (l : List Nat) : List Nat :=
  l.foldr sortedInsert []

/-- Embeds `FinancialCalculator.align_data`: normalize both indices to
month-end, combine the two series over the union of their indices (an outer
join producing `NaN` where a series has no value), then `dropna`: a month
survives with its pair of values exactly when both series supply one. -/
def align_data (cpi ret : List (MDate × Option ℚ)) : List (Nat × ℚ × ℚ) :=
  let c := normalizeIndex cpi
  let r := normalizeIndex ret
  let idx := sortedMonths (c.map Prod.fst ++ r.map Prod.fst)
  idx.filterMap (fun m =>
    match lookupMonth c m, lookupMonth r m with
    | some x, some y => some (m, x, y)
    | _, _ => none)

/-! ## Calculator: regimes (`FinancialCalculator.classify_inflation_regime`) -/

/-- Embeds `FinancialCalculator.classify_inflation_regime`: thresholds at
`0.01` and `0.03`, returning the source's label strings. -/
def classify_inflation_regime (inflation_rate : ℚ) : String :=
  if inflation_rate < 1/100 then "Low (<1%)"
  else if inflation_rate < 3/100 then "Moderate (1-3%)"
  else "High (>3%)"

/-! ## Calculator: frames and the column-adding operations -/

/-- Columnwise model of the combined `DataFrame` flowing through the
pipeline.  `align_data` produces the `inflation` and `nominal` columns; the
remaining columns start absent (`none`) and are added by the operations
below. -/
structure CFrame where
  inflation : List ℚ
  nominal : List ℚ
  real : Option (List ℚ)
  regime : Option (List String)
  cumNominal : Option (List ℚ)
  cumReal : Option (List ℚ)
deriving DecidableEq, Repr, Inhabited

/-- Embeds `FinancialCalculator.calculate_real_returns`:
`df['Real_Return'] = df['Nominal_Return'] - df['Inflation_Rate']`. -/
def calculate_real_returns (df : CFrame) : CFrame :=
  { df with real := some (List.zipWith (fun n i => n - i) df.nominal df.inflation) }

/-- Embeds `FinancialCalculator.add_inflation_regimes`:
`df['Inflation_Regime'] = df['Inflation_Rate'].apply(classify_inflation_regime)`. -/
def add_inflation_regimes (df : CFrame) : CFrame :=
  { df with regime := some (df.inflation.map classify_inflation_regime) }

/-- Running products of a list starting from accumulator `a` (the model of
`Series.cumprod`, with `a = 1`). -/
def cumprodAux (a : ℚ) : List ℚ → List ℚ
  | [] => []
  | x :: t => (a * x) :: cumprodAux (a * x) t

/-- Cumulative return series of a return series:
`(1 + r).cumprod() - 1`. -/
def cumulative_from (rs : List ℚ) : List ℚ :=
  (cumprodAux 1 (rs.map (fun r => 1 + r))).map (fun x => x - 1)

/-- Embeds `FinancialCalculator.calculate_cumulative_returns`:
`df['Cumulative_Nominal'] = (1 + df['Nominal_Return']).cumprod() - 1` and
likewise for `Real_Return` (the real column is present at this pipeline
stage; an absent column is read as empty). -/
def calculate_cumulative_returns (df : CFrame) : CFrame :=
  { df with
      cumNominal := some (cumulative_from df.nominal)
      cumReal := some (cumulative_from (df.real.getD [])) }

/-- Reconstruction of a return series from its cumulative series:
`(1 + C_t) / (1 + C_(t-1)) - 1` for `t ≥ 1`, with `C_0` read as `0`
(so the first reconstructed return is `(1 + C_1)/1 - 1`). -/
def reconstruct (cs : List ℚ) : List ℚ :=
  List.zipWith (fun prev cur => (1 + cur) / (1 + prev) - 1) (0 :: cs) cs

/-! ## Calculator: in-place call semantics

The Python functions above mutate the caller's `DataFrame` object and
return it.  A heap of frames models the Python object store: a frame
variable is an index into the heap, and an in-place call overwrites the
caller's slot with the transformed frame and hands back the same index. -/

/-- Calls a frame transformation the way the Python code does: the caller's
heap slot `r` is overwritten with the result and the same reference is
returned. -/
def call_in_place (f : CFrame → CFrame) (heap : List CFrame) (r : Nat) :
    List CFrame × Nat :=
  (heap.set r (f (heap.getD r default)), r)

/-- The Python call `FinancialCalculator.calculate_real_returns(df)`. -/
def calculate_real_returns_call (heap : List CFrame) (r : Nat) : List CFrame × Nat :=
  call_in_place calculate_real_returns heap r

/-- The Python call `FinancialCalculator.add_inflation_regimes(df)`. -/
def add_inflation_regimes_call (heap : List CFrame) (r : Nat) : List CFrame × Nat :=
  call_in_place add_inflation_regimes heap r

/-- The Python call `FinancialCalculator.calculate_cumulative_returns(df)`. -/
def calculate_cumulative_returns_call (heap : List CFrame) (r : Nat) : List CFrame × Nat :=
  call_in_place calculate_cumulative_returns heap r

/-! ## Calculator: moments, rolling correlation, annualized metrics -/

/-- Mean of a list (the model of `Series.mean` on a non-empty series). -/
def sampleMean (xs : List ℚ) : ℚ :=
  xs.sum / (xs.length : ℚ)

/-- Bias-corrected sample variance (the square of `Series.std`, pandas
default `ddof=1`); meaningful for series of length at least 2. -/
def sampleVar (xs : List ℚ) : ℚ :=
  ((xs.map (fun x => (x - sampleMean xs) ^ 2)).sum) / ((xs.length - 1 : Nat) : ℚ)

/-- Bias-corrected sample covariance of two equally long lists. -/
def sampleCov (xs ys : List ℚ) : ℚ :=
  ((List.zipWith (fun x y => (x - sampleMean xs) * (y - sampleMean ys)) xs ys).sum) /
    ((xs.length - 1 : Nat) : ℚ)

/-- Trailing window of length `w` ending at position `i` (positions
`i-w+1 … i`, clipped at the front). -/
def windowAt (xs : List ℚ) (i w : Nat) : List ℚ :=
  (xs.take (i + 1)).drop (i + 1 - w)

/-- Covariance over the trailing windows at position `i`. -/
def windowCov (xs ys : List ℚ) (i w : Nat) : ℚ :=
  sampleCov (windowAt xs i w) (windowAt ys i w)

/-- Embeds `FinancialCalculator.calculate_rolling_correlation`
(`df[col1].rolling(window=window).corr(df[col2])`).  A position with fewer
than `window` points of history is `NaN` (`none`).  A defined position
holds the triple `(covariance, variance₁, variance₂)` over its trailing
windows, which determines the Pearson correlation
`cov / (√var₁ * √var₂)` — the correlation itself is irrational in general,
so theorems quantify over the square roots. -/
def calculate_rolling_correlation (xs ys : List ℚ) (window : Nat) :
    List (Option (ℚ × ℚ × ℚ)) :=
  (List.range xs.length).map (fun i =>
    if i + 1 < window then none
    else some (windowCov xs ys i window,
               sampleVar (windowAt xs i window),
               sampleVar (windowAt ys i window)))

/-- Output record of `FinancialCalculator.calculate_annualized_metrics`.
Volatility and Sharpe ratio are `Option ℚ`: `none` models pandas `NaN`. -/
structure AnnMetrics where
  annualizedReturn : ℚ
  annualizedVolatility : Option ℚ
  sharpeRatio : Option ℚ
deriving DecidableEq, Repr

/-- Embeds `FinancialCalculator.calculate_annualized_metrics`.  The
parameter `v` stands for the numeric value `std * sqrt(12)` of the
annualized volatility, which is irrational over `ℚ` in general; theorems
characterize it by `0 ≤ v` and `v ^ 2 = 12 * sampleVar rs`.  With fewer
than two observations `Series.std` (ddof=1) is `NaN`, so the volatility is
`none`; the source's guard `ann_vol != 0` evaluates to `True` on `NaN`
(so no zero-guard fires) and the quotient `ann_return / NaN` is again
`NaN` (`none`). -/
def calculate_annualized_metrics (rs : List ℚ) (v : ℚ) : AnnMetrics :=
  let annReturn : ℚ := (1 + sampleMean rs) ^ 12 - 1
  let annVol : Option ℚ := if 2 ≤ rs.length then some v else none
  { annualizedReturn := annReturn
    annualizedVolatility := annVol
    sharpeRatio :=
      match annVol with
      | none => none
      | some w => if w ≠ 0 then some (annReturn / w) else some 0 }

/-! ## Loader (`DataLoader.load_cpi`) -/

/-- Error kinds of the loading stage, as the spec's abstract taxonomy: a
Python `KeyError` from selecting an absent column is a `schemaError`, a
`ValueError` from `pd.to_datetime` on bad date components is a
`malformedInput`. -/
inductive LoadError where
  | fileNotFound
  | parseError
  | schemaError
  | malformedInput
deriving DecidableEq, Repr

/-- Column selection on a parsed CSV (a list of named columns of optional
rational cells, `none` modelling a missing/NaN cell): `none` when the
column is absent, in which case pandas raises `KeyError`. -/
def getCol (csv : List (String × List (Option ℚ))) (name : String) :
    Option (List (Option ℚ)) :=
  match csv.find? (fun c => c.1 == name) with
  | some c => some c.2
  | none => none

/-- Leap-year test of the proleptic Gregorian calendar, which pandas
timestamps use: divisible by 4, except centuries not divisible by 400. -/
def isLeapYear (y : Int) : Bool :=
  y % 4 == 0 && (y % 100 != 0 || y % 400 == 0)

/-- Number of days in month `m` of year `y` in the proleptic Gregorian
calendar. -/
def daysInMonth (y m : Int) : Int :=
  if m == 2 then (if isLeapYear y then 29 else 28)
  else if m == 4 || m == 6 || m == 9 || m == 11 then 30
  else 31

/-- Whether the midnight of day `y-m-d` is representable as a pandas
`Timestamp` (nanosecond epoch offsets in a signed 64-bit range):
`Timestamp.min` is 1677-09-21 00:12:43, so the earliest representable
midnight is 1677-09-22, and `Timestamp.max` is 2262-04-11 23:47:16, so
the latest representable midnight is 2262-04-11; outside this range
`pd.to_datetime` raises the `OutOfBoundsDatetime` subclass of
`ValueError`.  Assuming month and day already lie in their calendar
ranges, the numeric key `y*10000 + m*100 + d` orders dates
lexicographically, so the check is a pair of key comparisons. -/
def dateInBounds (y m d : Int) : Bool :=
  decide (16770922 ≤ y * 10000 + m * 100 + d) &&
  decide (y * 10000 + m * 100 + d ≤ 22620411)

/-- Validity of one row of Year/Month/Day components, modelling the
assembly check of `pd.to_datetime(df[['Year','Month','Day']])`: every
component present and integral, month in `1..12`, day within the month's
calendar length (leap years included), and the assembled date inside the
pandas `Timestamp` range; any failure raises `ValueError` there. -/
def validYMD (y m d : Option ℚ) : Bool :=
  match y, m, d with
  | some y, some m, some d =>
    y.den == 1 && m.den == 1 && d.den == 1 &&
    decide (1 ≤ m.num) && decide (m.num ≤ 12) &&
    decide (1 ≤ d.num) && decide (d.num ≤ daysInMonth y.num m.num) &&
    dateInBounds y.num m.num d.num
  | _, _, _ => false

/-- Sortable key of a valid Year/Month/Day row (the model of the assembled
`datetime` index value). -/
def rowKey (p : Option ℚ × Option ℚ × Option ℚ) : Int :=
  match p with
  | (some y, some m, some d) => y.num * 10000 + m.num * 100 + d.num
  | _ => 0

/-- Inserts a keyed row into a list sorted by key (stable). -/
def insertRow (x : Int × Option ℚ) : List (Int × Option ℚ) → List (Int × Option ℚ)
  | [] => [x]
  | y :: t => if x.1 ≤ y.1 then x :: y :: t else y :: insertRow x t

/-- Sorts keyed rows by key (the model of `df.sort_index()`). -/
def sortByKey (l : List (Int × Option ℚ)) : List (Int × Option ℚ) :=
  l.foldr insertRow []

/-- Embeds `DataLoader.load_cpi` after `pd.read_csv`: select the
Year/Month/Day columns (absent column: `KeyError`, i.e. `schemaError`),
assemble the date key (missing or invalid component values: `ValueError`
from `pd.to_datetime`, i.e. `malformedInput`), select the `Actual` column
(absent: `KeyError`, i.e. `schemaError`), rename it to `Inflation_Rate`
and sort by date. -/
def load_cpi (csv : List (String × List (Option ℚ))) :
    Except LoadError (List (Int × Option ℚ)) :=
  match getCol csv "Year", getCol csv "Month", getCol csv "Day" with
  | some ys, some ms, some ds =>
    let rows := List.zip ys (List.zip ms ds)
    if rows.all (fun p => validYMD p.1 p.2.1 p.2.2) then
      match getCol csv "Actual" with
      | some vals => .ok (sortByKey (List.zipWith (fun p v => (rowKey p, v)) rows vals))
      | none => .error .schemaError
    else .error .malformedInput
  | _, _, _ => .error .schemaError

/-! ## Helper lemmas -/

theorem filterMap_id_zipWith (g : ℚ → ℚ → ℚ) :
    ∀ as bs : List ℚ,
      List.filterMap id (List.zipWith (fun a b => some (g a b)) as bs)
        = List.zipWith g as bs
  | [], _ => by simp
  | _ :: _, [] => by simp
  | a :: as, b :: bs => by
      simpa [List.zipWith] using filterMap_id_zipWith g as bs

theorem zipWith_self_tail_getD (g : ℚ → ℚ → ℚ) :
    ∀ (ps : List ℚ) (i : Nat), i + 1 < ps.length →
      (List.zipWith g ps ps.tail).getD i 0 = g (ps.getD i 0) (ps.getD (i + 1) 0)
  | [], _, h => by simp at h
  | [_], _, h => by simp at h
  | _ :: _ :: _, 0, _ => by simp [List.zipWith]
  | a :: b :: t, i + 1, h => by
      have hh : i + 1 < (b :: t).length := by
        simp only [List.length_cons] at h ⊢; omega
      have ih := zipWith_self_tail_getD g (b :: t) i hh
      simpa [List.zipWith, List.getD_cons_succ] using ih

theorem zipWith_getElem?_some (f : ℚ → ℚ → ℚ) :
    ∀ (as bs : List ℚ) (i : Nat) (x y : ℚ),
      as[i]? = some x → bs[i]? = some y →
      (List.zipWith f as bs)[i]? = some (f x y)
  | [], _, _, _, _, hx, _ => by simp at hx
  | _ :: _, [], _, _, _, _, hy => by simp at hy
  | a :: as, b :: bs, 0, x, y, hx, hy => by
      simp only [List.getElem?_cons_zero, Option.some.injEq] at hx hy
      simp [List.zipWith, hx, hy]
  | a :: as, b :: bs, i + 1, x, y, hx, hy => by
      simp only [List.getElem?_cons_succ] at hx hy
      simpa [List.zipWith] using zipWith_getElem?_some f as bs i x y hx hy

theorem call_in_place_spec (f : CFrame → CFrame) (heap : List CFrame) (r : Nat)
    (h : r < heap.length) :
    (call_in_place f heap r).1.getD r default = f (heap.getD r default) ∧
    (call_in_place f heap r).2 = r ∧
    ∀ j, j ≠ r → (call_in_place f heap r).1.getD j default = heap.getD j default := by
  unfold call_in_place
  refine ⟨?_, rfl, ?_⟩
  · simp [List.getD_eq_getElem?_getD, List.getElem?_set_eq_of_lt _ h]
  · intro j hj
    simp [List.getD_eq_getElem?_getD, List.getElem?_set_ne (fun e => hj e.symm)]

theorem cumprodAux_getElem? :
    ∀ (l : List ℚ) (a : ℚ) (t : Nat), t < l.length →
      (cumprodAux a l)[t]? = some (a * (l.take (t + 1)).prod)
  | [], _, _, h => by simp at h
  | x :: tl, a, 0, _ => by simp [cumprodAux]
  | x :: tl, a, t + 1, h => by
      have hh : t < tl.length := by simpa using Nat.lt_of_succ_lt_succ h
      have ih := cumprodAux_getElem? tl (a * x) t hh
      simp [cumprodAux, List.getElem?_cons_succ, ih, mul_assoc]

theorem recon_aux :
    ∀ (l : List ℚ) (a : ℚ), a ≠ 0 → (∀ x ∈ l, x ≠ 0) →
      List.zipWith (fun prev cur => (1 + cur) / (1 + prev) - 1)
        ((a - 1) :: (cumprodAux a l).map (fun x => x - 1))
        ((cumprodAux a l).map (fun x => x - 1))
      = l.map (fun x => x - 1)
  | [], _, _, _ => by simp [cumprodAux]
  | x :: tl, a, ha, hl => by
      have hx : x ≠ 0 := hl x (List.mem_cons_self x tl)
      have ih := recon_aux tl (a * x) (mul_ne_zero ha hx)
        (fun y hy => hl y (List.mem_cons_of_mem x hy))
      have hhead : (1 + (a * x - 1)) / (1 + (a - 1)) - 1 = x - 1 := by
        have e1 : (1 : ℚ) + (a * x - 1) = a * x := by ring
        have e2 : (1 : ℚ) + (a - 1) = a := by ring
        rw [e1, e2, mul_div_cancel_left₀ x ha]
      simpa [cumprodAux, List.zipWith, hhead, mul_div_cancel_left₀ x ha] using ih

theorem recon_cumulative_from (ls : List ℚ) (h : ∀ r ∈ ls, 1 + r ≠ 0) :
    reconstruct (cumulative_from ls) = ls := by
  have haux := recon_aux (ls.map (fun r => 1 + r)) 1 one_ne_zero
    (by
      intro y hy
      obtain ⟨r, hr, rfl⟩ := List.mem_map.mp hy
      exact h r hr)
  unfold reconstruct cumulative_from
  have h0 : (1 : ℚ) - 1 = 0 := by norm_num
  rw [h0] at haux
  have hcomp : ((fun x : ℚ => x - 1) ∘ fun r : ℚ => 1 + r) = id := by
    funext r
    simp
  simpa [List.map_map, hcomp, List.map_id] using haux

/-! ## Claim theorems -/

/-- C1: for every price series of length `N ≥ 2` with no missing values,
`calculate_returns` yields exactly `N - 1` values, the `i`-th equal to
`p[i+1]/p[i] - 1`; the first observation has no return and is dropped. -/
theorem calculate_returns_spec (ps : List ℚ) (hlen : 2 ≤ ps.length) :
    (calculate_returns ps).length = ps.length - 1 ∧
    ∀ i : Nat, i + 1 < ps.length →
      (calculate_returns ps).getD i 0 = ps.getD (i + 1) 0 / ps.getD i 0 - 1 := by
  have hcr : calculate_returns ps
      = List.zipWith (fun prev cur => cur / prev - 1) ps ps.tail := by
    unfold calculate_returns pct_change dropna
    rw [List.filterMap_cons_none rfl]
    exact filterMap_id_zipWith _ ps ps.tail
  constructor
  · rw [hcr, List.length_zipWith, List.length_tail]
    omega
  · intro i hi
    rw [hcr]
    exact zipWith_self_tail_getD _ ps i hi

/-- C1 witness: the series `[100, 110, 121]` has two returns, the second
being `121/110 - 1`. -/
theorem calculate_returns_spec_witness :
    (calculate_returns [100, 110, 121]).length = 2 ∧
    (calculate_returns [100, 110, 121]).getD 1 0
      = ([100, 110, 121] : List ℚ).getD 2 0 / ([100, 110, 121] : List ℚ).getD 1 0 - 1 := by
  have h := calculate_returns_spec [100, 110, 121] (by simp)
  exact ⟨h.1, h.2 1 (by simp)⟩

/-- C3: `classify_inflation_regime` is total and partitions the rationals
into exactly three buckets with thresholds `0.01` and `0.03`; the boundary
inputs `0.01` and `0.03` map to Moderate and High respectively. -/
theorem classify_inflation_regime_spec :
    (∀ x : ℚ, classify_inflation_regime x = "Low (<1%)" ∨
        classify_inflation_regime x = "Moderate (1-3%)" ∨
        classify_inflation_regime x = "High (>3%)") ∧
    (∀ x : ℚ,
        (classify_inflation_regime x = "Low (<1%)" ↔ x < 1/100) ∧
        (classify_inflation_regime x = "Moderate (1-3%)" ↔ 1/100 ≤ x ∧ x < 3/100) ∧
        (classify_inflation_regime x = "High (>3%)" ↔ 3/100 ≤ x)) ∧
    classify_inflation_regime (1/100) = "Moderate (1-3%)" ∧
    classify_inflation_regime (3/100) = "High (>3%)" := by
  refine ⟨?_, ?_, ?_, ?_⟩
  · intro x
    unfold classify_inflation_regime
    split_ifs <;> simp
  · intro x
    by_cases h1 : x < 1/100
    · have e : classify_inflation_regime x = "Low (<1%)" := by
        unfold classify_inflation_regime
        rw [if_pos h1]
      refine ⟨?_, ?_, ?_⟩ <;> rw [e]
      · exact ⟨fun _ => h1, fun _ => rfl⟩
      · exact ⟨fun hs => absurd hs (by decide), fun hc => absurd h1 (not_lt.mpr hc.1)⟩
      · exact ⟨fun hs => absurd hs (by decide), fun hc => absurd h1 (not_lt.mpr (by linarith))⟩
    · by_cases h2 : x < 3/100
      · have e : classify_inflation_regime x = "Moderate (1-3%)" := by
          unfold classify_inflation_regime
          rw [if_neg h1, if_pos h2]
        refine ⟨?_, ?_, ?_⟩ <;> rw [e]
        · exact ⟨fun hs => absurd hs (by decide), fun hlt => absurd hlt h1⟩
        · exact ⟨fun _ => ⟨not_lt.mp h1, h2⟩, fun _ => rfl⟩
        · exact ⟨fun hs => absurd hs (by decide), fun hc => absurd h2 (not_lt.mpr hc)⟩
      · have e : classify_inflation_regime x = "High (>3%)" := by
          unfold classify_inflation_regime
          rw [if_neg h1, if_neg h2]
        refine ⟨?_, ?_, ?_⟩ <;> rw [e]
        · exact ⟨fun hs => absurd hs (by decide), fun hlt => absurd hlt h1⟩
        · exact ⟨fun hs => absurd hs (by decide), fun hc => absurd hc.2 h2⟩
        · exact ⟨fun _ => not_lt.mp h2, fun _ => rfl⟩
  · unfold classify_inflation_regime
    norm_num
  · unfold classify_inflation_regime
    norm_num

/-- C4: `calculate_real_returns` sets each row's real return to exactly the
nominal return minus the inflation rate. -/
theorem calculate_real_returns_spec (df : CFrame) (i : Nat) (x y : ℚ)
    (hx : df.nominal[i]? = some x) (hy : df.inflation[i]? = some y) :
    ((calculate_real_returns df).real.getD [])[i]? = some (x - y) := by
  unfold calculate_real_returns
  simpa using zipWith_getElem?_some _ df.nominal df.inflation i x y hx hy

/-- C4 witness: the spec's scenario — inflation `[0.02, 0.02, 0.04]`,
nominal `[0.01, -0.01, 0.02]` — yields real return `-0.03` at position 1. -/
theorem calculate_real_returns_spec_witness :
    ((calculate_real_returns
        { inflation := [1/50, 1/50, 1/25], nominal := [1/100, -1/100, 1/50],
          real := none, regime := none, cumNominal := none, cumReal := none }).real.getD
        [])[1]?
      = some (-3/100 : ℚ) := by
  have h := calculate_real_returns_spec
    { inflation := [1/50, 1/50, 1/25], nominal := [1/100, -1/100, 1/50],
      real := none, regime := none, cumNominal := none, cumReal := none }
    1 (-1/100) (1/50) rfl rfl
  rw [h]
  norm_num

/-- C8 counterexample: the claim that the calculator operations leave the
caller's frame unchanged is false — `calculate_real_returns` writes the
`Real_Return` column into the caller's frame, so after the call the
caller's heap slot no longer holds the original frame. -/
theorem calculator_no_mutation_counterexample :
    ¬ ((calculate_real_returns_call
          [({ inflation := [1/50], nominal := [1/100], real := none, regime := none,
              cumNominal := none, cumReal := none } : CFrame)] 0).1.getD 0 default
        = ({ inflation := [1/50], nominal := [1/100], real := none, regime := none,
             cumNominal := none, cumReal := none } : CFrame)) := by
  intro h
  have hreal := congrArg CFrame.real h
  simp [calculate_real_returns_call, call_in_place, calculate_real_returns] at hreal

/-- C8 (amended): each of `calculate_real_returns`, `add_inflation_regimes`
and `calculate_cumulative_returns` mutates the caller's frame in place —
after the call the caller's heap slot holds the transformed frame, the
returned reference aliases the argument, and no other heap slot changes. -/
theorem calculator_in_place_spec (heap : List CFrame) (r : Nat) (h : r < heap.length) :
    ((calculate_real_returns_call heap r).1.getD r default
        = calculate_real_returns (heap.getD r default) ∧
      (calculate_real_returns_call heap r).2 = r ∧
      ∀ j, j ≠ r →
        (calculate_real_returns_call heap r).1.getD j default = heap.getD j default) ∧
    ((add_inflation_regimes_call heap r).1.getD r default
        = add_inflation_regimes (heap.getD r default) ∧
      (add_inflation_regimes_call heap r).2 = r ∧
      ∀ j, j ≠ r →
        (add_inflation_regimes_call heap r).1.getD j default = heap.getD j default) ∧
    ((calculate_cumulative_returns_call heap r).1.getD r default
        = calculate_cumulative_returns (heap.getD r default) ∧
      (calculate_cumulative_returns_call heap r).2 = r ∧
      ∀ j, j ≠ r →
        (calculate_cumulative_returns_call heap r).1.getD j default = heap.getD j default) :=
  ⟨call_in_place_spec calculate_real_returns heap r h,
   call_in_place_spec add_inflation_regimes heap r h,
   call_in_place_spec calculate_cumulative_returns heap r h⟩

/-- C8 witness: on a one-frame heap, `calculate_real_returns` updates the
caller's slot to the transformed frame and returns the same reference. -/
theorem calculator_in_place_spec_witness :
    (calculate_real_returns_call
        [({ inflation := [1/50], nominal := [1/100], real := none, regime := none,
            cumNominal := none, cumReal := none } : CFrame)] 0).1.getD 0 default
      = calculate_real_returns
          ({ inflation := [1/50], nominal := [1/100], real := none, regime := none,
             cumNominal := none, cumReal := none } : CFrame) ∧
    (calculate_real_returns_call
        [({ inflation := [1/50], nominal := [1/100], real := none, regime := none,
            cumNominal := none, cumReal := none } : CFrame)] 0).2 = 0 := by
  have h := calculator_in_place_spec
    [({ inflation := [1/50], nominal := [1/100], real := none, regime := none,
        cumNominal := none, cumReal := none } : CFrame)] 0 (by simp)
  exact ⟨by simpa using h.1.1, h.1.2.1⟩

/-- C10: on a return series with exactly one observation the annualized
volatility is undefined (`NaN`, here `none`) — the bias-corrected sample
standard deviation needs two points — and the Sharpe ratio is therefore
also undefined rather than `0`, because the zero-volatility guard
`ann_vol != 0` is `True` on `NaN` and the quotient by `NaN` is `NaN`. -/
theorem annualized_metrics_single_obs (rs : List ℚ) (v : ℚ) (h : rs.length = 1) :
    (calculate_annualized_metrics rs v).annualizedVolatility = none ∧
    (calculate_annualized_metrics rs v).sharpeRatio = none := by
  have h2 : ¬ 2 ≤ rs.length := by omega
  unfold calculate_annualized_metrics
  simp [h2]

/-- C10 witness: the one-observation series `[1/2]`. -/
theorem annualized_metrics_single_obs_witness :
    (calculate_annualized_metrics [1/2] 0).annualizedVolatility = none ∧
    (calculate_annualized_metrics [1/2] 0).sharpeRatio = none :=
  annualized_metrics_single_obs [1/2] 0 rfl

/-- C7: on a monthly return series with at least two observations,
`calculate_annualized_metrics` returns annualized return
`(1 + mean)^12 - 1`, annualized volatility `std * sqrt 12` (the
nonnegative `v` with `v^2 = 12 * sampleVar rs`), and Sharpe ratio
`ann_return / ann_vol`, except that a volatility of exactly `0` (i.e. zero
sample variance) yields Sharpe ratio exactly `0` with no exception. -/
theorem annualized_metrics_spec (rs : List ℚ) (v : ℚ) (hlen : 2 ≤ rs.length)
    (hv : 0 ≤ v) (hsq : v ^ 2 = 12 * sampleVar rs) :
    (calculate_annualized_metrics rs v).annualizedReturn
      = (1 + sampleMean rs) ^ 12 - 1 ∧
    (calculate_annualized_metrics rs v).annualizedVolatility = some v ∧
    (sampleVar rs = 0 → (calculate_annualized_metrics rs v).sharpeRatio = some 0) ∧
    (sampleVar rs ≠ 0 →
      (calculate_annualized_metrics rs v).sharpeRatio
        = some (((1 + sampleMean rs) ^ 12 - 1) / v)) := by
  have hvol : (calculate_annualized_metrics rs v).annualizedVolatility = some v := by
    unfold calculate_annualized_metrics
    simp [hlen]
  have hsharpe : (calculate_annualized_metrics rs v).sharpeRatio
      = if v ≠ 0 then some (((1 + sampleMean rs) ^ 12 - 1) / v) else some 0 := by
    unfold calculate_annualized_metrics
    simp [hlen]
  refine ⟨rfl, hvol, ?_, ?_⟩
  · intro h0
    have hv2 : v ^ 2 = 0 := by rw [hsq, h0]; ring
    have hv0 : v = 0 := by nlinarith [sq_nonneg v]
    rw [hsharpe, hv0]
    simp
  · intro hne
    have hvne : v ≠ 0 := by
      intro h0
      apply hne
      have h12 : (0 : ℚ) = 12 * sampleVar rs := by rw [← hsq, h0]; ring
      linarith
    rw [hsharpe, if_pos hvne]

/-- C7 witness: the series `[0, 0, 3]` has sample variance 3, so the
annualized volatility is `6` (since `6^2 = 12 * 3`). -/
theorem annualized_metrics_spec_witness :
    (calculate_annualized_metrics [0, 0, 3] 6).annualizedVolatility = some 6 ∧
    (calculate_annualized_metrics [0, 0, 3] 6).annualizedReturn
      = (1 + sampleMean [0, 0, 3]) ^ 12 - 1 := by
  have h := annualized_metrics_spec [0, 0, 3] 6 (by simp) (by norm_num)
    (by norm_num [sampleVar, sampleMean])
  exact ⟨h.2.1, h.1⟩

/-- C5 counterexample: reconstruction of returns from the cumulative series
does not recover the original returns for every series — with nominal
returns `[-1, 1/2]` the cumulative series is `[-1, -1]` and the
reconstruction `(1+C_t)/(1+C_(t-1)) - 1` divides by zero at `t = 2`
(`NaN` in the implementation), so the recovered series differs. -/
theorem cumulative_reconstruct_counterexample :
    reconstruct ((calculate_cumulative_returns
        ({ inflation := [0, 0], nominal := [-1, 1/2], real := some [0, 0], regime := none,
           cumNominal := none, cumReal := none } : CFrame)).cumNominal.getD [])
      ≠ [-1, 1/2] := by
  have hval : reconstruct ((calculate_cumulative_returns
      ({ inflation := [0, 0], nominal := [-1, 1/2], real := some [0, 0], regime := none,
         cumNominal := none, cumReal := none } : CFrame)).cumNominal.getD [])
      = [-1, -1] := by
    show reconstruct (cumulative_from [-1, 1/2]) = [-1, -1]
    norm_num [reconstruct, cumulative_from, cumprodAux, List.zipWith]
  rw [hval]
  intro h
  have := List.cons.injEq (-1 : ℚ) [-1] (-1) [1/2] ▸ h
  simp at h
  norm_num at h

/-- C5 (amended): `calculate_cumulative_returns` computes
`C_t = (Π_(i≤t) (1+r_i)) - 1` independently for the nominal and real
columns, and for every return series all of whose returns differ from `-1`
(so every factor `1+r_i` is nonzero) the reconstruction
`(1+C_t)/(1+C_(t-1)) - 1` (with `C_0` read as 0) recovers the original
returns exactly. -/
theorem cumulative_returns_spec (df : CFrame) (rs : List ℚ)
    (hreal : df.real = some rs)
    (hn : ∀ r ∈ df.nominal, 1 + r ≠ 0)
    (hrs : ∀ r ∈ rs, 1 + r ≠ 0) :
    (∀ t, t < df.nominal.length →
        ((calculate_cumulative_returns df).cumNominal.getD [])[t]?
          = some (((df.nominal.take (t + 1)).map (fun r => 1 + r)).prod - 1)) ∧
    reconstruct ((calculate_cumulative_returns df).cumNominal.getD []) = df.nominal ∧
    reconstruct ((calculate_cumulative_returns df).cumReal.getD []) = rs := by
  refine ⟨?_, ?_, ?_⟩
  · intro t ht
    have hlt : t < (df.nominal.map (fun r => 1 + r)).length := by simpa using ht
    have h := cumprodAux_getElem? (df.nominal.map (fun r => 1 + r)) 1 t hlt
    show (cumulative_from df.nominal)[t]? = _
    unfold cumulative_from
    rw [List.getElem?_map, h]
    simp [List.map_take]
  · exact recon_cumulative_from df.nominal hn
  · show reconstruct ((some (cumulative_from (df.real.getD []))).getD []) = rs
    rw [hreal]
    exact recon_cumulative_from rs hrs

/-- C5 witness: for the series `[1/10, -1/10, 1/5]` (all returns different
from `-1`) the reconstruction recovers the series exactly. -/
theorem cumulative_returns_spec_witness :
    reconstruct ((calculate_cumulative_returns
        ({ inflation := [0, 0, 0], nominal := [1/10, -1/10, 1/5], real := some [0, 0, 0],
           regime := none, cumNominal := none, cumReal := none } : CFrame)).cumNominal.getD [])
      = [1/10, -1/10, 1/5] := by
  have h := cumulative_returns_spec
    ({ inflation := [0, 0, 0], nominal := [1/10, -1/10, 1/5], real := some [0, 0, 0],
       regime := none, cumNominal := none, cumReal := none } : CFrame)
    [0, 0, 0] rfl
    (by
      intro r hr
      simp only [List.mem_cons, List.not_mem_nil, or_false] at hr
      rcases hr with h | h | h <;> rw [h] <;> norm_num)
    (by
      intro r hr
      simp only [List.mem_cons, List.not_mem_nil, or_false] at hr
      rcases hr with h | h | h <;> rw [h] <;> norm_num)
  exact h.2.1

theorem mem_sortedInsert (m : Nat) :
    ∀ (l : List Nat) (a : Nat), a ∈ sortedInsert m l ↔ a = m ∨ a ∈ l
  | [], a => by simp [sortedInsert]
  | h :: t, a => by
      unfold sortedInsert
      split_ifs with h1 h2
      · simp [List.mem_cons]
      · subst h2
        simp [List.mem_cons]
      · simp only [List.mem_cons, mem_sortedInsert m t a]
        tauto

theorem pairwise_sortedInsert (m : Nat) :
    ∀ l : List Nat, l.Pairwise (· < ·) → (sortedInsert m l).Pairwise (· < ·)
  | [], _ => by simp [sortedInsert]
  | h :: t, hp => by
      unfold sortedInsert
      rcases List.pairwise_cons.mp hp with ⟨hall, ht⟩
      split_ifs with h1 h2
      · refine List.pairwise_cons.mpr ⟨?_, hp⟩
        intro b hb
        rcases List.mem_cons.mp hb with rfl | hbt
        · exact h1
        · exact lt_trans h1 (hall b hbt)
      · exact hp
      · have hm : h < m := by omega
        refine List.pairwise_cons.mpr ⟨?_, pairwise_sortedInsert m t ht⟩
        intro b hb
        rcases (mem_sortedInsert m t b).mp hb with rfl | hbt
        · exact hm
        · exact hall b hbt

theorem pairwise_sortedMonths (l : List Nat) : (sortedMonths l).Pairwise (· < ·) := by
  unfold sortedMonths
  induction l with
  | nil => simp
  | cons a t ih => exact pairwise_sortedInsert a _ ih

theorem mem_sortedMonths (l : List Nat) (a : Nat) : a ∈ sortedMonths l ↔ a ∈ l := by
  unfold sortedMonths
  induction l with
  | nil => simp
  | cons b t ih => simp [List.foldr_cons, mem_sortedInsert, ih]

theorem lookupMonth_some_mem (l : List (Nat × Option ℚ)) (m : Nat) (x : ℚ)
    (h : lookupMonth l m = some x) : m ∈ l.map Prod.fst := by
  unfold lookupMonth at h
  rcases hf : l.find? (fun p => p.1 == m) with _ | p
  · rw [hf] at h
    simp at h
  · have hmem := List.mem_of_find?_eq_some hf
    have hbeq : p.1 = m := by simpa using List.find?_some hf
    exact List.mem_map.mpr ⟨p, hmem, hbeq⟩

theorem align_mem (cpi ret : List (MDate × Option ℚ)) (m : Nat) (x y : ℚ) :
    (m, x, y) ∈ align_data cpi ret ↔
      (m ∈ sortedMonths ((normalizeIndex cpi).map Prod.fst
            ++ (normalizeIndex ret).map Prod.fst) ∧
        lookupMonth (normalizeIndex cpi) m = some x ∧
        lookupMonth (normalizeIndex ret) m = some y) := by
  unfold align_data
  rw [List.mem_filterMap]
  constructor
  · rintro ⟨a, ha, hFa⟩
    rcases hc : lookupMonth (normalizeIndex cpi) a with _ | x0 <;>
      rcases hr : lookupMonth (normalizeIndex ret) a with _ | y0 <;>
      rw [hc, hr] at hFa <;> simp at hFa
    obtain ⟨rfl, rfl, rfl⟩ := hFa
    exact ⟨ha, hc, hr⟩
  · rintro ⟨hm, hcx, hry⟩
    exact ⟨m, hm, by rw [hcx, hry]⟩

theorem pairwise_months_filterMap (idx : List Nat) (F : Nat → Option (Nat × ℚ × ℚ))
    (hF : ∀ a u, F a = some u → u.1 = a) (hp : idx.Pairwise (· < ·)) :
    ((idx.filterMap F).map (fun u => u.1)).Pairwise (· < ·) := by
  induction idx with
  | nil => simp
  | cons a rest ih =>
    rcases List.pairwise_cons.mp hp with ⟨hall, hrest⟩
    rcases hFa : F a with _ | u
    · simpa [List.filterMap_cons_none hFa] using ih hrest
    · rw [List.filterMap_cons_some hFa]
      simp only [List.map_cons]
      refine List.pairwise_cons.mpr ⟨?_, ih hrest⟩
      intro b hb
      obtain ⟨v, hv, rfl⟩ := List.mem_map.mp hb
      obtain ⟨c, hcmem, hFc⟩ := List.mem_filterMap.mp hv
      rw [hF c v hFc, hF a u hFa]
      exact hall c hcmem

/-- C2: the frame returned by `align_data` has a row for month-end `d` iff
both inputs, normalized to month-end, hold a non-missing value for `d`;
the result's dates are unique and strictly increasing, and every surviving
row carries both values (rows with any missing field are dropped). -/
theorem align_data_spec (cpi ret : List (MDate × Option ℚ))
    (hc : ((normalizeIndex cpi).map Prod.fst).Pairwise (· < ·))
    (hr : ((normalizeIndex ret).map Prod.fst).Pairwise (· < ·)) :
    (∀ m : Nat, (∃ x y, (m, x, y) ∈ align_data cpi ret) ↔
        ((∃ x, lookupMonth (normalizeIndex cpi) m = some x) ∧
          (∃ y, lookupMonth (normalizeIndex ret) m = some y))) ∧
    ((align_data cpi ret).map (fun u => u.1)).Pairwise (· < ·) ∧
    (∀ u ∈ align_data cpi ret,
        lookupMonth (normalizeIndex cpi) u.1 = some u.2.1 ∧
        lookupMonth (normalizeIndex ret) u.1 = some u.2.2) := by
  refine ⟨?_, ?_, ?_⟩
  · intro m
    constructor
    · rintro ⟨x, y, hmem⟩
      obtain ⟨-, hcx, hry⟩ := (align_mem cpi ret m x y).mp hmem
      exact ⟨⟨x, hcx⟩, ⟨y, hry⟩⟩
    · rintro ⟨⟨x, hcx⟩, ⟨y, hry⟩⟩
      refine ⟨x, y, (align_mem cpi ret m x y).mpr ⟨?_, hcx, hry⟩⟩
      rw [mem_sortedMonths]
      exact List.mem_append.mpr (Or.inl (lookupMonth_some_mem _ m x hcx))
  · have hF : ∀ (a : Nat) (u : Nat × ℚ × ℚ),
        (match lookupMonth (normalizeIndex cpi) a, lookupMonth (normalizeIndex ret) a with
          | some x, some y => some (a, x, y)
          | _, _ => none) = some u → u.1 = a := by
      intro a u h
      rcases hc1 : lookupMonth (normalizeIndex cpi) a with _ | x0 <;>
        rcases hr1 : lookupMonth (normalizeIndex ret) a with _ | y0 <;>
        rw [hc1, hr1] at h <;> simp at h
      exact (congrArg Prod.fst h).symm
    exact pairwise_months_filterMap _ _ hF (pairwise_sortedMonths _)
  · intro u hu
    obtain ⟨m, x, y⟩ := u
    obtain ⟨-, hcx, hry⟩ := (align_mem cpi ret m x y).mp hu
    exact ⟨hcx, hry⟩

/-- C2 witness: a CPI series with mid-month dates in months 1 and 3 and a
returns series in months 1 and 2 align to strictly increasing months. -/
theorem align_data_spec_witness :
    ((align_data [(⟨1, 15⟩, some (1/50)), (⟨3, 15⟩, some (1/25))]
        [(⟨1, 31⟩, some (1/100)), (⟨2, 28⟩, some (1/200))]).map
        (fun u => u.1)).Pairwise (· < ·) :=
  (align_data_spec
    [(⟨1, 15⟩, some (1/50)), (⟨3, 15⟩, some (1/25))]
    [(⟨1, 31⟩, some (1/100)), (⟨2, 28⟩, some (1/200))]
    (by simp [normalizeIndex]) (by simp [normalizeIndex])).2.1

theorem list_sum_sq_nonneg (l : List (ℚ × ℚ)) (g : ℚ × ℚ → ℚ) :
    0 ≤ (l.map (fun p => (g p) ^ 2)).sum := by
  induction l with
  | nil => simp
  | cons p t ih =>
    simp only [List.map_cons, List.sum_cons]
    exact add_nonneg (sq_nonneg _) ih

theorem list_cauchy_schwarz :
    ∀ l : List (ℚ × ℚ),
      ((l.map (fun p => p.1 * p.2)).sum) ^ 2
        ≤ ((l.map (fun p => p.1 ^ 2)).sum) * ((l.map (fun p => p.2 ^ 2)).sum)
  | [] => by simp
  | p :: t => by
      obtain ⟨a, b⟩ := p
      have ih := list_cauchy_schwarz t
      have hA : 0 ≤ (t.map (fun p => p.1 ^ 2)).sum := list_sum_sq_nonneg t _
      have hB : 0 ≤ (t.map (fun p => p.2 ^ 2)).sum := list_sum_sq_nonneg t _
      simp only [List.map_cons, List.sum_cons]
      set S := (t.map (fun p => p.1 * p.2)).sum with hS
      set A := (t.map (fun p => p.1 ^ 2)).sum with hAdef
      set B := (t.map (fun p => p.2 ^ 2)).sum with hBdef
      rcases eq_or_lt_of_le hB with hB0 | hBpos
      · have hsq : S ^ 2 ≤ 0 := by nlinarith [ih, hA, hB0]
        have hS0 : S = 0 := by
          have h2 : S ^ 2 = 0 := le_antisymm hsq (sq_nonneg S)
          exact pow_eq_zero_iff (by norm_num) |>.mp h2
        rw [hS0, ← hB0]
        nlinarith [mul_nonneg hA (sq_nonneg b)]
      · nlinarith [sq_nonneg (a * B - b * S),
          mul_nonneg (sq_nonneg b) (sub_nonneg.mpr ih),
          mul_nonneg (le_of_lt hBpos) (sub_nonneg.mpr ih)]

theorem zipWith_eq_map_zip (f : ℚ → ℚ → ℚ) :
    ∀ xs ys : List ℚ, List.zipWith f xs ys = (xs.zip ys).map (fun p => f p.1 p.2)
  | [], _ => by simp
  | _ :: _, [] => by simp
  | x :: xs, y :: ys => by
      simp [List.zip_cons_cons, List.zipWith, zipWith_eq_map_zip f xs ys]

theorem cov_sq_le_var_mul_var (xs ys : List ℚ) (hlen : ys.length = xs.length) :
    (sampleCov xs ys) ^ 2 ≤ sampleVar xs * sampleVar ys := by
  unfold sampleCov sampleVar
  rw [hlen]
  set d : ℚ := ((xs.length - 1 : Nat) : ℚ) with hd
  have hd0 : (0 : ℚ) ≤ d := Nat.cast_nonneg _
  set mx := sampleMean xs with hmx
  set my := sampleMean ys with hmy
  set I := (List.zipWith (fun x y => (x - mx) * (y - my)) xs ys).sum with hI
  set A := ((xs.map (fun x => (x - mx) ^ 2)).sum) with hA
  set B := ((ys.map (fun y => (y - my) ^ 2)).sum) with hB
  have hAz : (((xs.zip ys).map (fun p => (p.1 - mx, p.2 - my))).map
      (fun p => p.1 ^ 2)).sum = A := by
    rw [hA]
    congr 1
    have h1 : ((xs.zip ys).map (fun p => (p.1 - mx, p.2 - my))).map (fun p => p.1 ^ 2)
        = ((xs.zip ys).map Prod.fst).map (fun x => (x - mx) ^ 2) := by
      simp [List.map_map, Function.comp]
    rw [h1, List.map_fst_zip xs ys (le_of_eq hlen.symm)]
  have hBz : (((xs.zip ys).map (fun p => (p.1 - mx, p.2 - my))).map
      (fun p => p.2 ^ 2)).sum = B := by
    rw [hB]
    congr 1
    have h1 : ((xs.zip ys).map (fun p => (p.1 - mx, p.2 - my))).map (fun p => p.2 ^ 2)
        = ((xs.zip ys).map Prod.snd).map (fun y => (y - my) ^ 2) := by
      simp [List.map_map, Function.comp]
    rw [h1, List.map_snd_zip xs ys (le_of_eq hlen)]
  have hIz : (((xs.zip ys).map (fun p => (p.1 - mx, p.2 - my))).map
      (fun p => p.1 * p.2)).sum = I := by
    rw [hI, zipWith_eq_map_zip]
    congr 1
    simp [List.map_map, Function.comp]
  have key : I ^ 2 ≤ A * B := by
    rw [← hAz, ← hBz, ← hIz]
    exact list_cauchy_schwarz _
  rw [div_pow, div_mul_div_comm, ← pow_two d]
  rcases eq_or_lt_of_le hd0 with h0 | hpos
  · rw [← h0]
    simp
  · have hdpos : (0 : ℚ) < d ^ 2 := by positivity
    exact (div_le_div_iff_of_pos_right hdpos).mpr key

theorem corr_bound (xs ys : List ℚ) (i w : Nat) (hlen : ys.length = xs.length)
    (s t : ℚ) (hs : 0 ≤ s) (ht : 0 ≤ t)
    (hs2 : s ^ 2 = sampleVar (windowAt xs i w))
    (ht2 : t ^ 2 = sampleVar (windowAt ys i w))
    (hst : s * t ≠ 0) :
    -1 ≤ windowCov xs ys i w / (s * t) ∧ windowCov xs ys i w / (s * t) ≤ 1 := by
  have hwlen : (windowAt ys i w).length = (windowAt xs i w).length := by
    simp [windowAt, hlen]
  have hq := cov_sq_le_var_mul_var (windowAt xs i w) (windowAt ys i w) hwlen
  have hstpos : 0 < s * t := lt_of_le_of_ne (mul_nonneg hs ht) (Ne.symm hst)
  have hq2 : (windowCov xs ys i w / (s * t)) ^ 2 ≤ 1 := by
    rw [div_pow, div_le_one (by positivity)]
    calc (windowCov xs ys i w) ^ 2
        ≤ sampleVar (windowAt xs i w) * sampleVar (windowAt ys i w) := hq
      _ = (s * t) ^ 2 := by rw [mul_pow, hs2, ht2]
  constructor <;>
    nlinarith [hq2, sq_nonneg (windowCov xs ys i w / (s * t) - 1),
      sq_nonneg (windowCov xs ys i w / (s * t) + 1)]

/-- C6: `calculate_rolling_correlation` with window `w` yields no defined
value at the first `w-1` positions; every position with at least `w` points
of history holds the (covariance, variance, variance) triple of its
trailing windows, and the Pearson correlation it determines — the
covariance divided by the product of the standard deviations — lies in
`[-1, 1]`. -/
theorem rolling_correlation_spec (xs ys : List ℚ) (w : Nat)
    (hlen : ys.length = xs.length) :
    (calculate_rolling_correlation xs ys w).length = xs.length ∧
    (∀ i, i + 1 < w → (calculate_rolling_correlation xs ys w).getD i none = none) ∧
    (∀ i, i < xs.length → w ≤ i + 1 →
      (calculate_rolling_correlation xs ys w).getD i none
        = some (windowCov xs ys i w, sampleVar (windowAt xs i w),
            sampleVar (windowAt ys i w))) ∧
    (∀ i s t, 0 ≤ s → 0 ≤ t → s ^ 2 = sampleVar (windowAt xs i w) →
      t ^ 2 = sampleVar (windowAt ys i w) → s * t ≠ 0 →
      -1 ≤ windowCov xs ys i w / (s * t) ∧ windowCov xs ys i w / (s * t) ≤ 1) := by
  have hget : ∀ i, i < xs.length →
      (calculate_rolling_correlation xs ys w).getD i none
        = if i + 1 < w then none
          else some (windowCov xs ys i w, sampleVar (windowAt xs i w),
              sampleVar (windowAt ys i w)) := by
    intro i hi
    unfold calculate_rolling_correlation
    rw [List.getD_eq_getElem?_getD, List.getElem?_map, List.getElem?_range hi]
    rfl
  refine ⟨?_, ?_, ?_, ?_⟩
  · unfold calculate_rolling_correlation
    simp
  · intro i h
    rcases lt_or_le i xs.length with hi | hi
    · rw [hget i hi, if_pos h]
    · rw [List.getD_eq_getElem?_getD, List.getElem?_eq_none]
      · rfl
      · unfold calculate_rolling_correlation
        simpa using hi
  · intro i hi hw
    rw [hget i hi, if_neg (by omega)]
  · intro i s t hs ht hs2 ht2 hst
    exact corr_bound xs ys i w hlen s t hs ht hs2 ht2 hst

/-- C6 witness: for `xs = [0,1,2]`, `ys = [0,2,4]`, window 3, position 2
is defined and the correlation `cov/(s*t)` with `s = 1`, `t = 2` lies in
`[-1, 1]`. -/
theorem rolling_correlation_spec_witness :
    (calculate_rolling_correlation [0, 1, 2] [0, 2, 4] 3).getD 2 none
      = some (windowCov [0, 1, 2] [0, 2, 4] 2 3, sampleVar (windowAt [0, 1, 2] 2 3),
          sampleVar (windowAt [0, 2, 4] 2 3)) ∧
    (-1 ≤ windowCov [0, 1, 2] [0, 2, 4] 2 3 / (1 * 2) ∧
      windowCov [0, 1, 2] [0, 2, 4] 2 3 / (1 * 2) ≤ 1) := by
  have h := rolling_correlation_spec [0, 1, 2] [0, 2, 4] 3 rfl
  refine ⟨h.2.2.1 2 (by norm_num) (by norm_num),
    h.2.2.2 2 1 2 (by norm_num) (by norm_num) ?_ ?_ (by norm_num)⟩
  · norm_num [windowAt, sampleVar, sampleMean]
  · norm_num [windowAt, sampleVar, sampleMean]

/-- C9: loading the inflation file fails with `malformedInput` (pandas
`ValueError` from date assembly) when the Year/Month/Day components of
some row are missing or invalid, and with `schemaError` (pandas
`KeyError` from column selection) when an expected column — Year, Month,
Day or Actual — is absent. -/
theorem load_cpi_spec (csv : List (String × List (Option ℚ))) :
    ((getCol csv "Year" = none ∨ getCol csv "Month" = none ∨ getCol csv "Day" = none) →
      load_cpi csv = .error .schemaError) ∧
    (∀ ys ms ds, getCol csv "Year" = some ys → getCol csv "Month" = some ms →
      getCol csv "Day" = some ds →
      (List.zip ys (List.zip ms ds)).all (fun p => validYMD p.1 p.2.1 p.2.2) = false →
      load_cpi csv = .error .malformedInput) ∧
    (∀ ys ms ds, getCol csv "Year" = some ys → getCol csv "Month" = some ms →
      getCol csv "Day" = some ds →
      (List.zip ys (List.zip ms ds)).all (fun p => validYMD p.1 p.2.1 p.2.2) = true →
      getCol csv "Actual" = none →
      load_cpi csv = .error .schemaError) := by
  refine ⟨?_, ?_, ?_⟩
  · intro h
    rcases hY : getCol csv "Year" with _ | ys <;>
      rcases hM : getCol csv "Month" with _ | ms <;>
      rcases hD : getCol csv "Day" with _ | ds <;>
      simp_all [load_cpi]
  · intro ys ms ds hY hM hD hall
    simp [load_cpi, hY, hM, hD, hall]
  · intro ys ms ds hY hM hD hall hA
    simp [load_cpi, hY, hM, hD, hall, hA]

/-- C9 witness: a CSV whose Month component is missing in its single row
fails with `malformedInput`. -/
theorem load_cpi_spec_witness :
    load_cpi [("Year", [some 2020]), ("Month", [none]), ("Day", [some 1])]
      = .error .malformedInput :=
  (load_cpi_spec [("Year", [some 2020]), ("Month", [none]), ("Day", [some 1])]).2.1
    [some 2020] [none] [some 1] rfl rfl rfl rfl

end InflationAnalysis
